import Mathlib

/-!
# Verification of the flynn controller-grpc streaming service

Shallow embedding of `src/controller-grpc/controller.go` (package `main`).
Pure data transformations are translated to Lean functions; the effectful
handlers are translated by passing oracle results (repo replies, bus event
deliveries, subscription errors) as explicit arguments, and by returning
an explicit record of the externally visible actions (sent responses,
repository writes, subscriber creations).

Helpers from the sibling packages `controller-grpc/utils` and
`controller-grpc/protobuf` (name parsing, label matching) are not part of
the source tree; they are modelled from the specification, and each such
definition is marked `Modelled from the spec`.
-/

set_option autoImplicit false

namespace ControllerGRPC

/-- Labels / metadata maps are carried as association lists of key-value
pairs (Go `map[string]string`); only membership of pairs is inspected. -/
abbrev Labels := List (String × String)

/-- The `ct.EventOp` tag: the mutation kind carried by a change-log event. -/
inductive EventOp where
  | create
  | update
  deriving DecidableEq, Repr

/-- Decoded `data.PageToken`: requested page size and optional
`BeforeID` watermark.  The opaque string codec is not modelled; handlers
receive the structured token directly. -/
structure PageToken where
  size : Int
  beforeID : Option Int
  deriving DecidableEq, Repr

/-- Split a resource name on `/` (computed over the character list so that
concrete instances reduce in the kernel). -/
def splitSlash (s : String) : List String :=
  ((s.toList).splitOn '/').map fun cs => String.mk cs

/-- Modelled from the spec (§4.2, `utils.ParseIDFromName` helper): scan the
`/`-separated segments and return the segment following `seg`, or the empty
string when absent. -/
def parseSegAfter (seg : String) : List String → String
  | a :: b :: rest => if a = seg then b else parseSegAfter seg (b :: rest)
  | _ => ""

/-- Modelled from the spec (§4.2): `utils.ParseIDFromName(name, segment)`
returns the ID segment following `segment/`, or empty if absent. -/
def parseIDFromName (name seg : String) : String :=
  parseSegAfter seg (splitSlash name)

/-- Modelled from the spec (§4.2): `utils.ParseIDsFromNameFilters` maps
`parseIDFromName` across a filter list, dropping empties and deduplicating. -/
def parseIDsFromNameFilters (names : List String) (seg : String) : List String :=
  ((names.map (fun n => parseIDFromName n seg)).filter (fun s => s ≠ "")).dedup

/-- Modelled from the spec (§4.2): `utils.ParseAppIDsFromNameFilters`.
A bare token (no structured path) is itself an app-name-or-ID filter;
otherwise the `apps/` segment is extracted. -/
def parseAppIDsFromNameFilters (names : List String) : List String :=
  ((names.map fun n =>
      if (splitSlash n).length = 1 then n else parseIDFromName n "apps").filter
    (fun s => s ≠ "")).dedup

/-- Modelled from the spec (§4.3): `protobuf.MatchLabelFilters` is a
disjunction of conjunctions; an entity matches a filter group if every
(key, value) pair of the group is present in its labels, and matches the
overall filter if the filter list is empty or some group matches. -/
def matchLabelFilters (labels : Labels) (filters : List Labels) : Bool :=
  filters.isEmpty || filters.any fun g => g.all fun kv => labels.contains kv

/-- Modelled from the spec (§4.3): `protobuf.NewReleaseTypeMatcher(types)`,
empty `types` matches all; otherwise membership. -/
def releaseTypeMatch (types : List String) (t : String) : Bool :=
  types.isEmpty || types.contains t

/-! ## UpdateApp (`controller.go` lines 445-479) -/

/-- The fields of the request's `protobuf.App` projection that `UpdateApp`
inspects when building the update map. -/
structure PAppUpdate where
  name : String
  labels : Labels
  strategy : String
  deployTimeout : Int
  deriving DecidableEq, Repr

/-- The `map[string]interface{}` passed to `appRepo.Update`: the only keys
the handler ever stores are `meta`, `strategy` and `deploy_timeout`, so the
map is represented by one optional field per key (`none` = key absent). -/
structure UpdateData where
  meta : Option Labels
  strategy : Option String
  deployTimeout : Option Int
  deriving DecidableEq, Repr

/-- Body of `UpdateApp` up to the repo call: build the update map from the
app projection (`meta` unconditionally; `strategy` when non-empty;
`deploy_timeout` when positive), then, when a field mask with non-empty
paths is present, keep only the named keys that are present in the map,
aliasing the path `labels` to `meta`. -/
def updateAppData (app : PAppUpdate) (maskPaths : Option (List String)) : UpdateData :=
  let d : UpdateData :=
    { meta := some app.labels
      strategy := if app.strategy ≠ "" then some app.strategy else none
      deployTimeout := if app.deployTimeout > 0 then some app.deployTimeout else none }
  match maskPaths with
  | none => d
  | some paths =>
    if paths.isEmpty then d
    else
      { meta := if paths.contains "labels" || paths.contains "meta" then d.meta else none
        strategy := if paths.contains "strategy" then d.strategy else none
        deployTimeout := if paths.contains "deploy_timeout" then d.deployTimeout else none }

/-! ## StreamScales (`controller.go` lines 552-701) -/

/-- The converted `protobuf.ScaleRequest` payload; the live re-filter only
inspects its resource `Name`. -/
structure PScaleRequest where
  name : String
  deriving DecidableEq, Repr

/-- A `scale_request` bus event as it reaches the StreamScales live loop:
its change-log `ID` (Go `int64`), its `Op`, and its payload (`none` models a
`json.Unmarshal` failure on `event.Data`). -/
structure ScaleEvent where
  id : Int
  op : EventOp
  data : Option PScaleRequest
  deriving DecidableEq, Repr

/-- Fields of `protobuf.StreamScalesRequest` the handler inspects.  The page
token is carried in decoded form. -/
structure StreamScalesRequest where
  pageSize : Int
  pageToken : PageToken
  nameFilters : List String
  streamCreates : Bool
  streamUpdates : Bool
  deriving DecidableEq, Repr

/-- Arguments a handler passes to `subscribeEvents`. -/
structure SubscribeArgs where
  appIDs : List String
  objectTypes : List String
  objectIDs : List String
  deriving DecidableEq, Repr

/-- From `StreamScales` lines 568-579: parse the three ID filter sets; when
release IDs are named the subscription cannot filter on them, so the app-id
and scale-id subscription filters are dropped. -/
def streamScalesSubscribeArgs (req : StreamScalesRequest) : SubscribeArgs :=
  let appIDs := parseIDsFromNameFilters req.nameFilters "apps"
  let releaseIDs := parseIDsFromNameFilters req.nameFilters "releases"
  let scaleIDs := parseIDsFromNameFilters req.nameFilters "scales"
  if releaseIDs.length > 0 then
    { appIDs := [], objectTypes := ["scale_request"], objectIDs := [] }
  else
    { appIDs := appIDs, objectTypes := ["scale_request"], objectIDs := scaleIDs }

/-- From `StreamScales` lines 665-690: the client-side name re-filter applied to
the unmarshalled scale request.  Each `...Matches` flag requires the
corresponding filter set to be non-empty and the ID parsed from the scale's
name to belong to it; when no flag holds and some filter set is non-empty
the event is skipped. -/
def scaleNameFilterAccept (appIDs releaseIDs scaleIDs : List String)
    (scale : PScaleRequest) : Bool :=
  let releaseIDMatches :=
    !releaseIDs.isEmpty && releaseIDs.contains (parseIDFromName scale.name "releases")
  let appIDMatches :=
    !appIDs.isEmpty && appIDs.contains (parseIDFromName scale.name "apps")
  let scaleIDMatches :=
    !scaleIDs.isEmpty && scaleIDs.contains (parseIDFromName scale.name "scales")
  if !(releaseIDMatches || appIDMatches || scaleIDMatches) then
    if !releaseIDs.isEmpty || !appIDs.isEmpty || !scaleIDs.isEmpty then false else true
  else true

/-- The `StreamScales` live loop, lines 636-696: returns the events for which a
response is sent.  `currID` starts at the Go zero value `0`; an event with
`id ≤ currID` is skipped, otherwise `currID` advances to the event's id and
the op filter, unmarshal and name re-filter run in source order. -/
def streamScalesLoop (streamCreates streamUpdates : Bool)
    (appIDs releaseIDs scaleIDs : List String) :
    Int → List ScaleEvent → List ScaleEvent
  | _, [] => []
  | currID, e :: rest =>
    if e.id ≤ currID then
      streamScalesLoop streamCreates streamUpdates appIDs releaseIDs scaleIDs currID rest
    else
      let tail := streamScalesLoop streamCreates streamUpdates appIDs releaseIDs scaleIDs e.id rest
      if !((streamCreates && e.op == EventOp.create) ||
           (streamUpdates && e.op == EventOp.update)) then tail
      else
        match e.data with
        | none => tail
        | some scale =>
          if scaleNameFilterAccept appIDs releaseIDs scaleIDs scale then e :: tail else tail

/-- The payloads sent by the StreamScales live loop (one single-element
response per accepted event). -/
def streamScalesSent (streamCreates streamUpdates : Bool)
    (appIDs releaseIDs scaleIDs : List String) (currID : Int)
    (events : List ScaleEvent) : List PScaleRequest :=
  (streamScalesLoop streamCreates streamUpdates appIDs releaseIDs scaleIDs currID events).filterMap
    (fun e => e.data)

/-- The sequence of `StreamScalesResponse` payloads emitted by `StreamScales`:
the snapshot page (as returned by `formationRepo.ListScaleRequests`, supplied
here as an oracle), then, for streaming requests, one single-element response
per live event accepted by the loop started at `currID = 0`. -/
def streamScalesResponses (req : StreamScalesRequest)
    (snapshot : List PScaleRequest) (events : List ScaleEvent) :
    List (List PScaleRequest) :=
  let appIDs := parseIDsFromNameFilters req.nameFilters "apps"
  let releaseIDs := parseIDsFromNameFilters req.nameFilters "releases"
  let scaleIDs := parseIDsFromNameFilters req.nameFilters "scales"
  let unary := !(req.streamUpdates || req.streamCreates)
  if unary then [snapshot]
  else
    snapshot ::
      (streamScalesSent req.streamCreates req.streamUpdates appIDs releaseIDs scaleIDs 0
        events).map (fun s => [s])

/-! ## StreamReleases (`controller.go` lines 703-888) -/

/-- The converted `protobuf.Release` payload; the handler inspects its
labels (for label filters) and its name (for snapshot dedup). -/
structure PRelease where
  name : String
  labels : Labels
  deriving DecidableEq, Repr

/-- A `release` bus/change-log event as the StreamReleases handler sees it:
change-log `ID`, owning `AppID`, `ObjectID` (the release id), and payload
(`none` models a `json.Unmarshal` failure). -/
structure ReleaseEvent where
  id : Int
  appID : String
  objectID : String
  data : Option PRelease
  deriving DecidableEq, Repr

/-- Function `maybeAcceptRelease`, lines 757-784: name filters (release IDs first,
falling back to app IDs), then unmarshal, then label filters.  Returns the
release to send, or `none` when the event is skipped (filtered out or
unparseable). -/
def maybeAcceptRelease (appIDs releaseIDs : List String) (labelFilters : List Labels)
    (e : ReleaseEvent) : Option PRelease :=
  if !releaseIDs.isEmpty && !releaseIDs.contains e.objectID &&
      !(!appIDs.isEmpty && appIDs.contains e.appID) then none
  else
    match e.data with
    | none => none
    | some r => if matchLabelFilters r.labels labelFilters then some r else none

/-- The `StreamReleases` watermark initialization, lines 817-846: `currID`
starts at `0`, is set to the page token's `BeforeID` when present, and is
then overwritten with each snapshot event's id while iterating the
(descending) snapshot list in reverse; the final value is the id of the
newest snapshot event. -/
def streamReleasesInitCurrID (beforeID : Option Int) (listDesc : List ReleaseEvent) : Int :=
  (listDesc.reverse).foldl (fun _ e => e.id) (beforeID.getD 0)

/-- The `StreamReleases` live loop, lines 856-884: an event with
`id ≤ currID` is skipped (overlap between the snapshot list and the live
stream), otherwise `currID` advances and `maybeAcceptRelease` decides
whether a response is sent.  Returns the accepted events. -/
def streamReleasesLoop (appIDs releaseIDs : List String) (labelFilters : List Labels) :
    Int → List ReleaseEvent → List ReleaseEvent
  | _, [] => []
  | currID, e :: rest =>
    if e.id ≤ currID then streamReleasesLoop appIDs releaseIDs labelFilters currID rest
    else
      let tail := streamReleasesLoop appIDs releaseIDs labelFilters e.id rest
      match maybeAcceptRelease appIDs releaseIDs labelFilters e with
      | none => tail
      | some _ => e :: tail

/-! ## Live-loop watermark lemmas -/

theorem streamReleasesLoop_mem_gt (appIDs releaseIDs : List String)
    (labelFilters : List Labels) :
    ∀ (events : List ReleaseEvent) (currID : Int) (e : ReleaseEvent),
      e ∈ streamReleasesLoop appIDs releaseIDs labelFilters currID events → currID < e.id := by
  intro events
  induction events with
  | nil => intro currID e h; simp [streamReleasesLoop] at h
  | cons a rest ih =>
    intro currID e h
    rw [streamReleasesLoop] at h
    by_cases hle : a.id ≤ currID
    · rw [if_pos hle] at h
      exact ih currID e h
    · rw [if_neg hle] at h
      push_neg at hle
      cases hacc : maybeAcceptRelease appIDs releaseIDs labelFilters a with
      | none =>
        rw [hacc] at h
        exact lt_trans hle (ih a.id e h)
      | some r =>
        rw [hacc] at h
        rcases List.mem_cons.mp h with rfl | h
        · exact hle
        · exact lt_trans hle (ih a.id e h)

theorem streamReleasesLoop_chain (appIDs releaseIDs : List String)
    (labelFilters : List Labels) :
    ∀ (events : List ReleaseEvent) (currID : Int),
      List.Chain' (· < ·)
        ((streamReleasesLoop appIDs releaseIDs labelFilters currID events).map
          ReleaseEvent.id) := by
  intro events
  induction events with
  | nil => intro currID; simp [streamReleasesLoop]
  | cons a rest ih =>
    intro currID
    rw [streamReleasesLoop]
    by_cases hle : a.id ≤ currID
    · rw [if_pos hle]; exact ih currID
    · rw [if_neg hle]
      cases hacc : maybeAcceptRelease appIDs releaseIDs labelFilters a with
      | none => exact ih a.id
      | some r =>
        simp only [List.map_cons]
        refine List.chain'_cons'.mpr ⟨?_, ih a.id⟩
        intro y hy
        obtain ⟨z, hz, rfl⟩ :=
          List.mem_map.mp (List.mem_of_mem_head? hy)
        exact streamReleasesLoop_mem_gt appIDs releaseIDs labelFilters rest a.id z hz

theorem streamScalesLoop_mem_gt (sc su : Bool) (appIDs releaseIDs scaleIDs : List String) :
    ∀ (events : List ScaleEvent) (currID : Int) (e : ScaleEvent),
      e ∈ streamScalesLoop sc su appIDs releaseIDs scaleIDs currID events → currID < e.id := by
  intro events
  induction events with
  | nil => intro currID e h; simp [streamScalesLoop] at h
  | cons a rest ih =>
    intro currID e h
    rw [streamScalesLoop] at h
    by_cases hle : a.id ≤ currID
    · rw [if_pos hle] at h
      exact ih currID e h
    · rw [if_neg hle] at h
      push_neg at hle
      by_cases hop : (!((sc && a.op == EventOp.create) || (su && a.op == EventOp.update))) = true
      · rw [if_pos hop] at h
        exact lt_trans hle (ih a.id e h)
      · rw [if_neg hop] at h
        cases hdata : a.data with
        | none =>
          rw [hdata] at h
          exact lt_trans hle (ih a.id e h)
        | some scale =>
          rw [hdata] at h
          dsimp only at h
          by_cases hacc : scaleNameFilterAccept appIDs releaseIDs scaleIDs scale = true
          · rw [if_pos hacc] at h
            rcases List.mem_cons.mp h with rfl | h
            · exact hle
            · exact lt_trans hle (ih a.id e h)
          · rw [if_neg hacc] at h
            exact lt_trans hle (ih a.id e h)

theorem streamScalesLoop_chain (sc su : Bool) (appIDs releaseIDs scaleIDs : List String) :
    ∀ (events : List ScaleEvent) (currID : Int),
      List.Chain' (· < ·)
        ((streamScalesLoop sc su appIDs releaseIDs scaleIDs currID events).map
          ScaleEvent.id) := by
  intro events
  induction events with
  | nil => intro currID; simp [streamScalesLoop]
  | cons a rest ih =>
    intro currID
    rw [streamScalesLoop]
    by_cases hle : a.id ≤ currID
    · rw [if_pos hle]; exact ih currID
    · rw [if_neg hle]
      by_cases hop : (!((sc && a.op == EventOp.create) || (su && a.op == EventOp.update))) = true
      · rw [if_pos hop]; exact ih a.id
      · rw [if_neg hop]
        cases hdata : a.data with
        | none => exact ih a.id
        | some scale =>
          dsimp only
          by_cases hacc : scaleNameFilterAccept appIDs releaseIDs scaleIDs scale = true
          · rw [if_pos hacc]
            simp only [List.map_cons]
            refine List.chain'_cons'.mpr ⟨?_, ih a.id⟩
            intro y hy
            obtain ⟨z, hz, rfl⟩ :=
              List.mem_map.mp (List.mem_of_mem_head? hy)
            exact streamScalesLoop_mem_gt sc su appIDs releaseIDs scaleIDs rest a.id z hz
          · rw [if_neg hacc]
            exact ih a.id

/-- Claim C1, counterexample.  The claim states that for every streaming
Stream* RPC with a non-empty snapshot, a live event whose id is at most the
snapshot high watermark (initialized from the snapshot or the page token's
`before_id`) is discarded.  `StreamScales` refutes it: its `currID` starts
at the Go zero value `0` and is never initialized from the snapshot or the
page token, so with `before_id = 5` and a non-empty snapshot, the live
event with id `3 ≤ 5` is still forwarded as a response. -/
theorem streamScales_forwards_live_event_below_watermark :
    streamScalesResponses
        { pageSize := 2, pageToken := { size := 2, beforeID := some 5 },
          nameFilters := [], streamCreates := true, streamUpdates := false }
        [{ name := "apps/a1/releases/r1/scales/s0" }]
        [{ id := 3, op := EventOp.create,
           data := some { name := "apps/a1/releases/r1/scales/s3" } }] =
      [[{ name := "apps/a1/releases/r1/scales/s0" }],
       [{ name := "apps/a1/releases/r1/scales/s3" }]]
    ∧ (3 : Int) ≤ 5 := by
  decide

/-- Claim C1, amended: only `StreamReleases` maintains the claimed watermark:
`currID` is initialized to the page token's `before_id` and then to the ids
of the snapshot events, ending at the newest snapshot id, and its live loop
forwards only events with strictly increasing ids above that watermark (so
no id is emitted twice and no snapshot event is re-emitted).  `StreamScales`
initializes its watermark to `0`, so its live loop only guarantees strictly
increasing live ids; it does not suppress events at or below the snapshot
watermark. -/
theorem watermark_dedup_amended
    (appIDs releaseIDs : List String) (labelFilters : List Labels)
    (events : List ReleaseEvent)
    (beforeID : Option Int) (listDesc : List ReleaseEvent)
    (sc su : Bool) (sAppIDs sReleaseIDs sScaleIDs : List String)
    (scaleEvents : List ScaleEvent)
    (hdesc : listDesc.Sorted (fun a b => b.id ≤ a.id)) :
    List.Chain' (· < ·)
      ((streamReleasesLoop appIDs releaseIDs labelFilters
        (streamReleasesInitCurrID beforeID listDesc) events).map ReleaseEvent.id)
    ∧ (∀ e ∈ streamReleasesLoop appIDs releaseIDs labelFilters
          (streamReleasesInitCurrID beforeID listDesc) events,
        streamReleasesInitCurrID beforeID listDesc < e.id)
    ∧ (∀ e ∈ listDesc, e.id ≤ streamReleasesInitCurrID beforeID listDesc)
    ∧ List.Chain' (· < ·)
      ((streamScalesLoop sc su sAppIDs sReleaseIDs sScaleIDs 0 scaleEvents).map ScaleEvent.id)
    ∧ (∀ e ∈ streamScalesLoop sc su sAppIDs sReleaseIDs sScaleIDs 0 scaleEvents,
        (0 : Int) < e.id) := by
  refine ⟨streamReleasesLoop_chain _ _ _ _ _,
    fun e he => streamReleasesLoop_mem_gt _ _ _ _ _ _ he, ?_,
    streamScalesLoop_chain _ _ _ _ _ _ _,
    fun e he => streamScalesLoop_mem_gt _ _ _ _ _ _ _ _ he⟩
  cases listDesc with
  | nil => intro e he; simp at he
  | cons a rest =>
    have hinit : streamReleasesInitCurrID beforeID (a :: rest) = a.id := by
      simp [streamReleasesInitCurrID]
    intro e he
    rw [hinit]
    rcases List.mem_cons.mp he with rfl | he
    · exact le_refl _
    · exact (List.pairwise_cons.mp hdesc).1 e he

/-- Witness for `watermark_dedup_amended` at a concrete input: a one-element
descending snapshot with `before_id = 2` has every snapshot event id at most
the initialized watermark. -/
theorem watermark_dedup_amended_witness :
    ({ id := 4, appID := "a1", objectID := "r1", data := none } : ReleaseEvent).id ≤
      streamReleasesInitCurrID (some 2)
        [{ id := 4, appID := "a1", objectID := "r1", data := none }] :=
  (watermark_dedup_amended [] [] [] [] (some 2)
      [{ id := 4, appID := "a1", objectID := "r1", data := none }]
      true false [] [] [] [] (by simp)).2.2.1
    { id := 4, appID := "a1", objectID := "r1", data := none } (by simp)

/-- Claim C8: when the StreamScales request names release ids, the bus
subscription is widened (app-id and scale-id filters dropped), and the live
handler re-filters client-side: an event surviving the watermark and op
checks with a well-formed payload is emitted iff one of its app-id,
release-id or scale-id (parsed from the scale's resource name) matches a
corresponding non-empty filter set, or all three filter sets are empty. -/
theorem streamScales_widening_and_refilter
    (req : StreamScalesRequest)
    (appIDs releaseIDs scaleIDs : List String) (scale : PScaleRequest)
    (sc su : Bool) (currID : Int) (e : ScaleEvent)
    (hrel : parseIDsFromNameFilters req.nameFilters "releases" ≠ [])
    (hid : currID < e.id)
    (hop : ((sc && e.op == EventOp.create) || (su && e.op == EventOp.update)) = true)
    (hdata : e.data = some scale) :
    streamScalesSubscribeArgs req =
      { appIDs := [], objectTypes := ["scale_request"], objectIDs := [] }
    ∧ scaleNameFilterAccept appIDs releaseIDs scaleIDs scale =
        ((!appIDs.isEmpty && appIDs.contains (parseIDFromName scale.name "apps")) ||
         (!releaseIDs.isEmpty && releaseIDs.contains (parseIDFromName scale.name "releases")) ||
         (!scaleIDs.isEmpty && scaleIDs.contains (parseIDFromName scale.name "scales")) ||
         (appIDs.isEmpty && releaseIDs.isEmpty && scaleIDs.isEmpty))
    ∧ streamScalesLoop sc su appIDs releaseIDs scaleIDs currID [e] =
        (if scaleNameFilterAccept appIDs releaseIDs scaleIDs scale then [e] else []) := by
  refine ⟨?_, ?_, ?_⟩
  · simp only [streamScalesSubscribeArgs]
    rw [if_pos (List.length_pos.mpr hrel)]
  · simp only [scaleNameFilterAccept]
    generalize appIDs.isEmpty = ea
    generalize releaseIDs.isEmpty = er
    generalize scaleIDs.isEmpty = es
    generalize appIDs.contains (parseIDFromName scale.name "apps") = ca
    generalize releaseIDs.contains (parseIDFromName scale.name "releases") = cr
    generalize scaleIDs.contains (parseIDFromName scale.name "scales") = cs
    revert ea er es ca cr cs
    decide
  · rw [streamScalesLoop]
    rw [if_neg (not_le.mpr hid), hop, hdata]
    simp [streamScalesLoop]

/-- Witness for `streamScales_widening_and_refilter` at a concrete request
naming a release id, with a matching live event. -/
theorem streamScales_widening_and_refilter_witness :
    streamScalesSubscribeArgs
        { pageSize := 0, pageToken := { size := 0, beforeID := none },
          nameFilters := ["apps/a1/releases/r1"], streamCreates := true,
          streamUpdates := false } =
      { appIDs := [], objectTypes := ["scale_request"], objectIDs := [] }
    ∧ scaleNameFilterAccept ["a1"] ["r1"] [] { name := "apps/a1/releases/r1/scales/s1" } =
        ((!(["a1"] : List String).isEmpty &&
            (["a1"] : List String).contains
              (parseIDFromName ("apps/a1/releases/r1/scales/s1" : String) "apps")) ||
         (!(["r1"] : List String).isEmpty &&
            (["r1"] : List String).contains
              (parseIDFromName ("apps/a1/releases/r1/scales/s1" : String) "releases")) ||
         (!([] : List String).isEmpty &&
            ([] : List String).contains
              (parseIDFromName ("apps/a1/releases/r1/scales/s1" : String) "scales")) ||
         ((["a1"] : List String).isEmpty && (["r1"] : List String).isEmpty &&
            ([] : List String).isEmpty))
    ∧ streamScalesLoop true false ["a1"] ["r1"] [] 0
        [{ id := 7, op := EventOp.create,
           data := some { name := "apps/a1/releases/r1/scales/s1" } }] =
        (if scaleNameFilterAccept ["a1"] ["r1"] [] { name := "apps/a1/releases/r1/scales/s1" }
          then [{ id := 7, op := EventOp.create,
                  data := some { name := "apps/a1/releases/r1/scales/s1" } }]
          else []) :=
  streamScales_widening_and_refilter
    { pageSize := 0, pageToken := { size := 0, beforeID := none },
      nameFilters := ["apps/a1/releases/r1"], streamCreates := true, streamUpdates := false }
    ["a1"] ["r1"] [] { name := "apps/a1/releases/r1/scales/s1" }
    true false 0
    { id := 7, op := EventOp.create,
      data := some { name := "apps/a1/releases/r1/scales/s1" } }
    (by decide) (by decide) (by decide) rfl

/-! ## CreateScale (`controller.go` lines 481-550) -/

/-- The fields of the `ct.ScaleRequest` unmarshalled from a bus event that
the wait loop inspects. -/
structure ScaleEventData where
  id : String
  state : String
  deriving DecidableEq, Repr

/-- One delivery from the `{scale_request}` subscription channel (`none`
data models a `json.Unmarshal` failure, which the loop skips). -/
structure ScaleReqEvent where
  objectType : String
  data : Option ScaleEventData
  deriving DecidableEq, Repr

/-- The scale-request row built by `createScale` and passed to
`formationRepo.AddScaleRequest` (processes and tags are pass-through and
not modelled).  `AddScaleRequest` assigns the `id`. -/
structure CtScaleRequest where
  id : String
  appID : String
  releaseID : String
  state : String
  deriving DecidableEq, Repr

/-- The four return paths of `createScale`: the converted request record on
completion, the `scale request cancelled` error, the
`timed out waiting for scale to complete` error, and a converted
subscription error (`sub.Err`) observed after the loop breaks. -/
inductive CreateScaleOutcome where
  | completed (r : CtScaleRequest)
  | cancelledErr
  | timedOutErr
  | busErr (msg : String)
  deriving DecidableEq, Repr

/-- The `createScale` wait loop, lines 510-545.  `events` are the deliveries
that arrive before the `DefaultScaleTimeout` timer fires; `closedAfter`
tells whether the subscription channel closes after them (the `!ok` break)
— otherwise the `timeout` select case fires next.  `subErr` is `sub.Err`
as read after the loop breaks. -/
def createScaleLoop (reqID : String) (subErr : Option String) (record : CtScaleRequest)
    (closedAfter : Bool) : List ScaleReqEvent → CreateScaleOutcome
  | [] =>
    if closedAfter then
      match subErr with
      | none => .completed record
      | some msg => .busErr msg
    else .timedOutErr
  | e :: rest =>
    if e.objectType ≠ "scale_request" then
      createScaleLoop reqID subErr record closedAfter rest
    else
      match e.data with
      | none => createScaleLoop reqID subErr record closedAfter rest
      | some d =>
        if d.id ≠ reqID then createScaleLoop reqID subErr record closedAfter rest
        else if d.state = "cancelled" then .cancelledErr
        else if d.state = "complete" then
          match subErr with
          | none => .completed record
          | some msg => .busErr msg
        else createScaleLoop reqID subErr record closedAfter rest

/-- The externally visible behavior of `createScale`: the subscription it
opens, the row it inserts, and its outcome. -/
structure CreateScaleExec where
  subscribeArgs : SubscribeArgs
  inserted : CtScaleRequest
  outcome : CreateScaleOutcome
  deriving DecidableEq, Repr

/-- Function `createScale`, lines 481-546: parse app and release ids from the parent
name, subscribe to `{scale_request}` events for the app id (no object-id
filter), insert a scale request in state `pending` (`assignedID` is the id
the repo assigns), then block in `createScaleLoop`. -/
def createScale (parent : String) (assignedID : String) (subErr : Option String)
    (closedAfter : Bool) (events : List ScaleReqEvent) : CreateScaleExec :=
  let appID := parseIDFromName parent "apps"
  let releaseID := parseIDFromName parent "releases"
  let scaleReq : CtScaleRequest :=
    { id := assignedID, appID := appID, releaseID := releaseID, state := "pending" }
  { subscribeArgs := { appIDs := [appID], objectTypes := ["scale_request"], objectIDs := [] }
    inserted := scaleReq
    outcome := createScaleLoop assignedID subErr scaleReq closedAfter events }

/-- An event the `createScale` wait loop passes over without returning:
wrong object type, unparseable payload, another request's id, or a
non-terminal state. -/
def scaleLoopSkips (reqID : String) (e : ScaleReqEvent) : Prop :=
  e.objectType ≠ "scale_request" ∨ e.data = none ∨
    ∃ d, e.data = some d ∧ (d.id ≠ reqID ∨ (d.state ≠ "cancelled" ∧ d.state ≠ "complete"))

/-! ## CreateDeployment (`controller.go` lines 1045-1112) -/

/-- The fields of the `ct.DeploymentEvent` unmarshalled from a bus event
that `CreateDeployment` reads. -/
structure DeploymentEventData where
  jobType : String
  jobState : String
  errMsg : String
  deriving DecidableEq, Repr

/-- The fields of the deployment row returned by `deploymentRepo.Get` that
the handler reads. -/
structure CtDeployment where
  appID : String
  newReleaseID : String
  status : String
  deriving DecidableEq, Repr

/-- One delivery from the `{deployment}` subscription, together with the
`deploymentRepo.Get` reply at that moment (the repo is re-queried for every
event; `none` models a repo error, which the loop skips). -/
structure DepEvent where
  objectType : String
  objectID : String
  createdAt : Int
  data : Option DeploymentEventData
  getResult : Option CtDeployment
  deriving DecidableEq, Repr

/-- A `protobuf.DeploymentEvent` message sent on the client stream. -/
structure SentDeploymentEvent where
  deployment : CtDeployment
  jobType : String
  jobState : String
  errMsg : String
  createTime : Int
  deriving DecidableEq, Repr

/-- The arguments of an embedded `createScale` call issued by
`CreateDeployment` (processes and tags are pass-through). -/
structure ScaleCallArgs where
  parent : String
  deriving DecidableEq, Repr

/-- Return value of `CreateDeployment`: success, the deployment-failed
error carrying the event's error message, or a subscription error. -/
inductive DeployResult where
  | ok
  | failed (msg : String)
  | busErr (msg : String)
  deriving DecidableEq, Repr

/-- Externally visible behavior of the `CreateDeployment` event loop. -/
structure CreateDeploymentOut where
  sent : List SentDeploymentEvent
  scaleCalls : List ScaleCallArgs
  result : DeployResult
  deriving DecidableEq, Repr

/-- The `CreateDeployment` event loop, lines 1062-1111: skip events that are
not deployment events, fail to unmarshal, or whose repo lookup fails; when
the fetched deployment's status is `complete` and the request carries a
scale request, issue the embedded `createScale` — whose outcome
`scaleOutcome` is discarded (`let _ := ...`), exactly as the source drops
the call's return values; send the deployment event; return the event's
error message when the status is `failed`, and `sub.Err` (success when
`none`) after `complete` or channel close. -/
def createDeploymentLoop (scaleRequested : Bool) (scaleOutcome : CreateScaleOutcome)
    (subErr : Option String) : List DepEvent → CreateDeploymentOut
  | [] =>
    { sent := [], scaleCalls := []
      result := match subErr with | none => .ok | some m => .busErr m }
  | e :: rest =>
    if e.objectType ≠ "deployment" then
      createDeploymentLoop scaleRequested scaleOutcome subErr rest
    else
      match e.data with
      | none => createDeploymentLoop scaleRequested scaleOutcome subErr rest
      | some de =>
        match e.getResult with
        | none => createDeploymentLoop scaleRequested scaleOutcome subErr rest
        | some d =>
          let calls : List ScaleCallArgs :=
            if d.status = "complete" ∧ scaleRequested = true then
              let _ := scaleOutcome
              [{ parent := "apps/" ++ d.appID ++ "/releases/" ++ d.newReleaseID }]
            else []
          let sentE : SentDeploymentEvent :=
            { deployment := d, jobType := de.jobType, jobState := de.jobState
              errMsg := de.errMsg, createTime := e.createdAt }
          if d.status = "failed" then
            { sent := [sentE], scaleCalls := calls, result := .failed de.errMsg }
          else if d.status = "complete" then
            { sent := [sentE], scaleCalls := calls
              result := match subErr with | none => .ok | some m => .busErr m }
          else
            let out := createDeploymentLoop scaleRequested scaleOutcome subErr rest
            { sent := sentE :: out.sent, scaleCalls := calls ++ out.scaleCalls
              result := out.result }

/-- The message (if any) a single event contributes to the client stream:
events passing the object-type, unmarshal and repo-lookup guards are
forwarded. -/
def depForward (e : DepEvent) : List SentDeploymentEvent :=
  if e.objectType ≠ "deployment" then []
  else
    match e.data, e.getResult with
    | some de, some d =>
      [{ deployment := d, jobType := de.jobType, jobState := de.jobState
         errMsg := de.errMsg, createTime := e.createdAt }]
    | _, _ => []

/-- An event the `CreateDeployment` loop skips without sending. -/
def depLoopSkips (e : DepEvent) : Prop :=
  e.objectType ≠ "deployment" ∨ e.data = none ∨ e.getResult = none

/-- An event the `CreateDeployment` loop forwards and then keeps waiting
after: well-formed, but with a non-terminal status. -/
def depNonTerminal (e : DepEvent) : Prop :=
  ∃ de d, e.data = some de ∧ e.getResult = some d ∧ e.objectType = "deployment" ∧
    d.status ≠ "failed" ∧ d.status ≠ "complete"

/-! ## CreateScale / CreateDeployment lemmas -/

theorem createScaleLoop_skip (reqID : String) (subErr : Option String)
    (record : CtScaleRequest) (closedAfter : Bool) (e : ScaleReqEvent)
    (rest : List ScaleReqEvent) (h : scaleLoopSkips reqID e) :
    createScaleLoop reqID subErr record closedAfter (e :: rest) =
      createScaleLoop reqID subErr record closedAfter rest := by
  simp only [createScaleLoop]
  by_cases ht : e.objectType ≠ "scale_request"
  · rw [if_pos ht]
  · rw [if_neg ht]
    rcases h with h | h | ⟨d, hd, hcase⟩
    · exact absurd h ht
    · rw [h]
    · rw [hd]
      dsimp only
      rcases hcase with hid | ⟨hcanc, hcomp⟩
      · rw [if_pos hid]
      · by_cases hid : d.id ≠ reqID
        · rw [if_pos hid]
        · rw [if_neg hid, if_neg hcanc, if_neg hcomp]

theorem createScaleLoop_skipAll (reqID : String) (subErr : Option String)
    (record : CtScaleRequest) (closedAfter : Bool) :
    ∀ (pre rest : List ScaleReqEvent), (∀ e ∈ pre, scaleLoopSkips reqID e) →
      createScaleLoop reqID subErr record closedAfter (pre ++ rest) =
        createScaleLoop reqID subErr record closedAfter rest := by
  intro pre
  induction pre with
  | nil => intro rest _; rfl
  | cons a pre ih =>
    intro rest h
    rw [List.cons_append,
      createScaleLoop_skip reqID subErr record closedAfter a (pre ++ rest)
        (h a (List.mem_cons_self a pre))]
    exact ih rest fun e he => h e (List.mem_cons_of_mem a he)

theorem createDeploymentLoop_step (sr : Bool) (o : CreateScaleOutcome)
    (subErr : Option String) (e : DepEvent) (rest : List DepEvent)
    (h : depLoopSkips e ∨ depNonTerminal e) :
    createDeploymentLoop sr o subErr (e :: rest) =
      { sent := depForward e ++ (createDeploymentLoop sr o subErr rest).sent
        scaleCalls := (createDeploymentLoop sr o subErr rest).scaleCalls
        result := (createDeploymentLoop sr o subErr rest).result } := by
  rcases h with (h | h | h) | ⟨de, d, hde, hd, ht, hf, hc⟩
  · simp only [createDeploymentLoop, depForward]
    rw [if_pos h, if_pos h, List.nil_append]
  · simp only [createDeploymentLoop, depForward]
    by_cases ht : e.objectType ≠ "deployment"
    · rw [if_pos ht, if_pos ht, List.nil_append]
    · rw [if_neg ht, if_neg ht, h]
      dsimp only
      cases e.getResult <;> rfl
  · simp only [createDeploymentLoop, depForward]
    by_cases ht : e.objectType ≠ "deployment"
    · rw [if_pos ht, if_pos ht, List.nil_append]
    · rw [if_neg ht, if_neg ht]
      cases hdata : e.data with
      | none => rfl
      | some de =>
        dsimp only
        rw [h]
        rfl
  · have ht' : ¬ e.objectType ≠ "deployment" := by simp [ht]
    simp only [createDeploymentLoop, depForward]
    rw [if_neg ht', if_neg ht', hde, hd]
    dsimp only
    have hcall : ¬ (d.status = "complete" ∧ sr = true) := fun hh => hc hh.1
    rw [if_neg hf, if_neg hc, if_neg hcall]
    simp

theorem createDeploymentLoop_skipAll (sr : Bool) (o : CreateScaleOutcome)
    (subErr : Option String) :
    ∀ (pre rest : List DepEvent), (∀ e ∈ pre, depLoopSkips e ∨ depNonTerminal e) →
      createDeploymentLoop sr o subErr (pre ++ rest) =
        { sent := pre.flatMap depForward ++ (createDeploymentLoop sr o subErr rest).sent
          scaleCalls := (createDeploymentLoop sr o subErr rest).scaleCalls
          result := (createDeploymentLoop sr o subErr rest).result } := by
  intro pre
  induction pre with
  | nil => intro rest _; simp
  | cons a pre ih =>
    intro rest h
    rw [List.cons_append,
      createDeploymentLoop_step sr o subErr a (pre ++ rest) (h a (List.mem_cons_self a pre)),
      ih rest fun e he => h e (List.mem_cons_of_mem a he)]
    simp

/-- Claim C3: `createScale` inserts a scale-request row in state `pending`,
subscribes to `scale_request` events for the target app id (parsed from the
parent name), and blocks until exactly one of: an event for this request
with state `complete`, upon which it returns the scale request record; an
event for this request with state `cancelled`, upon which it fails with the
`scale request cancelled` error; or the default scale timeout elapsing with
no terminal event delivered, upon which it fails with the timed-out error. -/
theorem createScale_pending_subscribe_and_outcomes
    (parent assignedID : String) (subErr : Option String) (closedAfter : Bool)
    (pre rest skipped : List ScaleReqEvent) (e : ScaleReqEvent) (d : ScaleEventData)
    (hpre : ∀ x ∈ pre, scaleLoopSkips assignedID x)
    (htype : e.objectType = "scale_request")
    (hdata : e.data = some d)
    (hid : d.id = assignedID)
    (hskip : ∀ x ∈ skipped, scaleLoopSkips assignedID x) :
    (createScale parent assignedID subErr closedAfter (pre ++ e :: rest)).inserted.state
        = "pending"
    ∧ (createScale parent assignedID subErr closedAfter (pre ++ e :: rest)).subscribeArgs =
        { appIDs := [parseIDFromName parent "apps"], objectTypes := ["scale_request"],
          objectIDs := [] }
    ∧ (d.state = "complete" → subErr = none →
        (createScale parent assignedID subErr closedAfter (pre ++ e :: rest)).outcome =
          CreateScaleOutcome.completed
            (createScale parent assignedID subErr closedAfter (pre ++ e :: rest)).inserted)
    ∧ (d.state = "cancelled" →
        (createScale parent assignedID subErr closedAfter (pre ++ e :: rest)).outcome =
          CreateScaleOutcome.cancelledErr)
    ∧ (createScale parent assignedID subErr false skipped).outcome =
        CreateScaleOutcome.timedOutErr := by
  refine ⟨rfl, rfl, ?_, ?_, ?_⟩
  · intro hst hsub
    simp only [createScale]
    rw [createScaleLoop_skipAll assignedID subErr _ closedAfter pre (e :: rest) hpre]
    simp only [createScaleLoop]
    rw [if_neg (by simp [htype]), hdata]
    dsimp only
    rw [if_neg (by simp [hid]), if_neg (by simp [hst]), if_pos hst, hsub]
  · intro hst
    simp only [createScale]
    rw [createScaleLoop_skipAll assignedID subErr _ closedAfter pre (e :: rest) hpre]
    simp only [createScaleLoop]
    rw [if_neg (by simp [htype]), hdata]
    dsimp only
    rw [if_neg (by simp [hid]), if_pos hst]
  · simp only [createScale]
    rw [← List.append_nil skipped,
      createScaleLoop_skipAll assignedID subErr _ false skipped [] hskip]
    rfl

/-- Witness for `createScale_pending_subscribe_and_outcomes`: a matching
`complete` event makes the concrete call return the inserted record. -/
theorem createScale_outcomes_witness :
    (createScale "apps/a1/releases/r1" "sr1" none false
        [{ objectType := "scale_request", data := some { id := "sr1", state := "complete" } }]).outcome
      = CreateScaleOutcome.completed
          (createScale "apps/a1/releases/r1" "sr1" none false
            [{ objectType := "scale_request",
               data := some { id := "sr1", state := "complete" } }]).inserted :=
  (createScale_pending_subscribe_and_outcomes "apps/a1/releases/r1" "sr1" none false
      [] [] [] { objectType := "scale_request", data := some { id := "sr1", state := "complete" } }
      { id := "sr1", state := "complete" }
      (by simp) rfl rfl rfl (by simp)).2.2.1 rfl rfl

/-- Claim C4: `CreateDeployment` forwards each well-formed deployment event to
the client stream; when the freshly fetched deployment's status is `failed`
it returns the failure error carrying the deployment event's error message
(after sending that event), and when the status is `complete` it issues the
embedded `createScale` (exactly when the request carries a scale request)
and then returns success. -/
theorem createDeployment_forwards_and_terminates
    (scaleRequested : Bool) (o : CreateScaleOutcome) (subErr : Option String)
    (pre rest : List DepEvent) (e : DepEvent) (de : DeploymentEventData) (d : CtDeployment)
    (hpre : ∀ x ∈ pre, depLoopSkips x ∨ depNonTerminal x)
    (htype : e.objectType = "deployment")
    (hdata : e.data = some de)
    (hget : e.getResult = some d) :
    (d.status = "failed" →
      createDeploymentLoop scaleRequested o subErr (pre ++ e :: rest) =
        { sent := pre.flatMap depForward ++
            [{ deployment := d, jobType := de.jobType, jobState := de.jobState
               errMsg := de.errMsg, createTime := e.createdAt }]
          scaleCalls := []
          result := DeployResult.failed de.errMsg })
    ∧ (d.status = "complete" → subErr = none →
      createDeploymentLoop scaleRequested o subErr (pre ++ e :: rest) =
        { sent := pre.flatMap depForward ++
            [{ deployment := d, jobType := de.jobType, jobState := de.jobState
               errMsg := de.errMsg, createTime := e.createdAt }]
          scaleCalls := if scaleRequested = true then
              [{ parent := "apps/" ++ d.appID ++ "/releases/" ++ d.newReleaseID }] else []
          result := DeployResult.ok }) := by
  constructor
  · intro hst
    rw [createDeploymentLoop_skipAll scaleRequested o subErr pre (e :: rest) hpre]
    simp only [createDeploymentLoop]
    rw [if_neg (by simp [htype]), hdata]
    dsimp only
    rw [hget]
    dsimp only
    rw [if_pos hst, if_neg (show ¬ (d.status = "complete" ∧ scaleRequested = true) by
      simp [hst])]
  · intro hst hsub
    rw [createDeploymentLoop_skipAll scaleRequested o subErr pre (e :: rest) hpre]
    simp only [createDeploymentLoop]
    rw [if_neg (by simp [htype]), hdata]
    dsimp only
    rw [hget]
    dsimp only
    rw [if_neg (by simp [hst]), if_pos hst, hsub, hst]
    simp

/-- Witness for `createDeployment_forwards_and_terminates`: a single
`complete` event with a scale request issues the embedded scale and
returns success. -/
theorem createDeployment_outcomes_witness :
    createDeploymentLoop true (CreateScaleOutcome.timedOutErr) none
        [{ objectType := "deployment", objectID := "d1", createdAt := 9,
           data := some { jobType := "web", jobState := "up", errMsg := "" },
           getResult := some { appID := "a1", newReleaseID := "r2", status := "complete" } }] =
      { sent := [].flatMap depForward ++
          [{ deployment := { appID := "a1", newReleaseID := "r2", status := "complete" },
             jobType := "web", jobState := "up", errMsg := "", createTime := 9 }]
        scaleCalls := if (true : Bool) = true then
            [{ parent := "apps/" ++ "a1" ++ "/releases/" ++ "r2" }] else []
        result := DeployResult.ok } :=
  (createDeployment_forwards_and_terminates true CreateScaleOutcome.timedOutErr none
      [] []
      { objectType := "deployment", objectID := "d1", createdAt := 9,
        data := some { jobType := "web", jobState := "up", errMsg := "" },
        getResult := some { appID := "a1", newReleaseID := "r2", status := "complete" } }
      { jobType := "web", jobState := "up", errMsg := "" }
      { appID := "a1", newReleaseID := "r2", status := "complete" }
      (by simp) rfl rfl rfl).2 rfl rfl

/-- Claim C10: `CreateDeployment` discards the result and error of the
embedded `createScale` call: for every outcome of the embedded scale, the
loop sends the same events (including the final deployment event) and
returns the same status. -/
theorem createDeployment_scale_outcome_irrelevant
    (scaleRequested : Bool) (o1 o2 : CreateScaleOutcome) (subErr : Option String)
    (events : List DepEvent) :
    createDeploymentLoop scaleRequested o1 subErr events =
      createDeploymentLoop scaleRequested o2 subErr events := by
  induction events with
  | nil => rfl
  | cons e rest ih => simp only [createDeploymentLoop, ih]

/-- Claim C5, counterexample.  The claim states that with no field mask
exactly the non-zero fields of the projection are written, and that a
zero-valued field such as empty labels is not written.  In the source,
`data["meta"] = app.Labels` is set unconditionally before the zero checks
for the other fields, so an app with empty labels, empty strategy and zero
deploy timeout still writes `meta` (with an empty value). -/
theorem updateApp_writes_zero_valued_labels :
    updateAppData { name := "apps/a1", labels := [], strategy := "", deployTimeout := 0 }
        none =
      { meta := some [], strategy := none, deployTimeout := none } := by
  decide

/-- Claim C5, amended: with no mask, the labels are always written under the
stored key `meta` — zero-valued or not — while `strategy` and
`deploy_timeout` are written exactly when non-zero; with a mask carrying
non-empty paths, exactly the named keys among those present in the built
map are written, with the path `labels` aliased to `meta`. -/
theorem updateApp_mask_semantics (app : PAppUpdate) (paths : List String)
    (hne : ¬ paths.isEmpty = true) :
    (updateAppData app none).meta = some app.labels
    ∧ (updateAppData app none).strategy =
        (if app.strategy ≠ "" then some app.strategy else none)
    ∧ (updateAppData app none).deployTimeout =
        (if app.deployTimeout > 0 then some app.deployTimeout else none)
    ∧ (updateAppData app (some paths)).meta =
        (if paths.contains "labels" || paths.contains "meta" then some app.labels else none)
    ∧ (updateAppData app (some paths)).strategy =
        (if paths.contains "strategy" then
          (if app.strategy ≠ "" then some app.strategy else none) else none)
    ∧ (updateAppData app (some paths)).deployTimeout =
        (if paths.contains "deploy_timeout" then
          (if app.deployTimeout > 0 then some app.deployTimeout else none) else none) := by
  refine ⟨rfl, rfl, rfl, ?_, ?_, ?_⟩ <;>
    simp only [updateAppData, if_neg hne]

/-- Witness for `updateApp_mask_semantics`: a mask naming only `labels`
writes `meta` and suppresses a non-zero strategy. -/
theorem updateApp_mask_semantics_witness :
    (updateAppData
        { name := "apps/a1", labels := [("k", "v")], strategy := "all-at-once",
          deployTimeout := 0 } (some ["labels"])).meta =
      (if (["labels"] : List String).contains "labels" ||
          (["labels"] : List String).contains "meta"
        then some [("k", "v")] else none) :=
  (updateApp_mask_semantics
      { name := "apps/a1", labels := [("k", "v")], strategy := "all-at-once",
        deployTimeout := 0 } ["labels"] (by decide)).2.2.2.1

/-! ## listApps / StreamApps snapshot (`controller.go` lines 269-346) -/

/-- The fields of a `ct.App` row that `listApps` inspects. -/
structure CtApp where
  id : String
  name : String
  meta : Labels
  deriving DecidableEq, Repr

/-- Modelled from the spec (§3, §6): the converted `protobuf.App`
projection is a pass-through; the resource name is `apps/{id}`. -/
structure PApp where
  name : String
  labels : Labels
  deriving DecidableEq, Repr

/-- Modelled from the spec (§3): `utils.ConvertApp`. -/
def convertApp (a : CtApp) : PApp :=
  { name := "apps/" ++ a.id, labels := a.meta }

/-- Fields of `protobuf.StreamAppsRequest` the handler inspects, with the page
token decoded. -/
structure StreamAppsRequest where
  pageSize : Int
  pageToken : PageToken
  nameFilters : List String
  labelFilters : List Labels
  streamCreates : Bool
  streamUpdates : Bool
  deriving DecidableEq, Repr

/-- The token `listApps` hands to `appRepo.ListPage` (lines 270-280): the
request's page size overrides the token's when positive. -/
def listAppsQueryToken (req : StreamAppsRequest) : PageToken :=
  if req.pageSize > 0 then { req.pageToken with size := req.pageSize } else req.pageToken

/-- The effective page size of one `listApps` level (lines 276-290): the
request's when positive, else the token's, else the repo page's length. -/
def listAppsPageSize (req : StreamAppsRequest) (ctApps : List CtApp) : Int :=
  let ps := if req.pageSize > 0 then req.pageSize else req.pageToken.size
  if ps = 0 then (ctApps.length : Int) else ps

/-- The filtering loop of `listApps` (lines 297-325): walk the repo page,
keep apps whose id or name matches the app-id filter (when non-empty) and
whose labels match the label filters, convert them, and stop as soon as the
running count `n` reaches `pageSize`. -/
def collectApps (appIDs : List String) (labelFilters : List Labels) (pageSize : Int) :
    List CtApp → Int → List PApp
  | [], _ => []
  | a :: rest, n =>
    if !appIDs.isEmpty && !(appIDs.any fun x => a.id == x || a.name == x) then
      collectApps appIDs labelFilters pageSize rest n
    else if !matchLabelFilters a.meta labelFilters then
      collectApps appIDs labelFilters pageSize rest n
    else
      let n' := n + 1
      if n' = pageSize then [convertApp a]
      else convertApp a :: collectApps appIDs labelFilters pageSize rest n'

/-- Function `listApps` (lines 269-346), with `appRepo.ListPage` supplied as an
oracle.  The Go code recurses on the next page token without a structural
bound, so the recursion is bounded by `fuel`; a fuel-exhausted recursive
call behaves as an erroring one, which — exactly like a repo error in the
recursive call — the source swallows, returning the page collected so far.
On page underflow with a next page token present, the recursive result is
prepended (`nextApps ++ apps`). -/
def listApps (repo : PageToken → Except String (List CtApp × Option PageToken)) :
    Nat → StreamAppsRequest → Except String (List PApp × Option PageToken)
  | 0, _ => .error "listApps: recursion bound exhausted"
  | fuel + 1, req =>
    match repo (listAppsQueryToken req) with
    | .error e => .error e
    | .ok (ctApps, nextPageToken) =>
      let pageSize := listAppsPageSize req ctApps
      let appIDs := parseAppIDsFromNameFilters req.nameFilters
      let apps := collectApps appIDs req.labelFilters pageSize ctApps 0
      if (apps.length : Int) < pageSize ∧ nextPageToken.isSome then
        match listApps repo fuel
            { req with pageToken := nextPageToken.getD (listAppsQueryToken req) } with
        | .error _ => .ok (apps, nextPageToken)
        | .ok (nextApps, npt) => .ok (nextApps ++ apps, npt)
      else .ok (apps, nextPageToken)

/-- A two-page repo in which fetching the second page fails. -/
def repoFillError : PageToken → Except String (List CtApp × Option PageToken) := fun t =>
  if t.beforeID = none then
    .ok ([{ id := "a1", name := "one", meta := [] }],
      some { size := 2, beforeID := some 10 })
  else .error "db down"

/-- A three-page repo on which the page-filling recursion overfills: the
first page has one label match, the second has two. -/
def repoOverfill : PageToken → Except String (List CtApp × Option PageToken) := fun t =>
  if t.beforeID = none then
    .ok ([{ id := "a1", name := "n1", meta := [("env", "prod")] },
          { id := "a2", name := "n2", meta := [] }],
      some { size := 2, beforeID := some 20 })
  else if t.beforeID = some 20 then
    .ok ([{ id := "a3", name := "n3", meta := [("env", "prod")] },
          { id := "a4", name := "n4", meta := [("env", "prod")] }],
      some { size := 2, beforeID := some 10 })
  else .ok ([], none)

/-- Claim C6, counterexample.  The claim states that any repo error during
the snapshot phase — including while fetching subsequent pages to fill the
requested page size — fails the RPC immediately.  In the source, an error
from the recursive page-filling call is swallowed
(`if err != nil { return apps, nextPageToken, nil }`): with a repo whose
second page errors, `listApps` succeeds with the partial first page. -/
theorem listApps_swallows_fill_page_error :
    repoFillError { size := 2, beforeID := some 10 } = Except.error "db down"
    ∧ listApps repoFillError 2
        { pageSize := 2, pageToken := { size := 0, beforeID := none },
          nameFilters := [], labelFilters := [], streamCreates := false,
          streamUpdates := false } =
        Except.ok ([{ name := "apps/a1", labels := [] }],
          some { size := 2, beforeID := some 10 }) :=
  ⟨rfl, rfl⟩

/-- Claim C6, amended: a repo error on the first snapshot page fails the RPC
immediately with that error; a repo error while fetching a subsequent
fill page is swallowed, and the page collected so far is returned together
with its next page token and no error. -/
theorem listApps_snapshot_error_semantics
    (repo : PageToken → Except String (List CtApp × Option PageToken))
    (fuel : Nat) (req : StreamAppsRequest) (msg : String)
    (ctApps : List CtApp) (npt : PageToken) :
    (repo (listAppsQueryToken req) = .error msg →
      listApps repo (fuel + 1) req = .error msg)
    ∧ (repo (listAppsQueryToken req) = .ok (ctApps, some npt) →
       listApps repo fuel { req with pageToken := npt } = .error msg →
       ((collectApps (parseAppIDsFromNameFilters req.nameFilters) req.labelFilters
           (listAppsPageSize req ctApps) ctApps 0).length : Int) <
         listAppsPageSize req ctApps →
       listApps repo (fuel + 1) req =
         .ok (collectApps (parseAppIDsFromNameFilters req.nameFilters) req.labelFilters
             (listAppsPageSize req ctApps) ctApps 0, some npt)) := by
  constructor
  · intro h
    simp only [listApps]
    rw [h]
  · intro h1 h2 h3
    simp only [listApps]
    rw [h1]
    dsimp only
    rw [if_pos ⟨h3, rfl⟩]
    simp only [Option.getD_some]
    rw [h2]

/-- Witness for `listApps_snapshot_error_semantics`: the two-page repo with
an erroring second page yields the partial page, without an error. -/
theorem listApps_snapshot_error_semantics_witness :
    listApps repoFillError 2
        { pageSize := 2, pageToken := { size := 0, beforeID := none },
          nameFilters := [], labelFilters := [], streamCreates := false,
          streamUpdates := false } =
      .ok (collectApps
            (parseAppIDsFromNameFilters [])
            []
            (listAppsPageSize
              { pageSize := 2, pageToken := { size := 0, beforeID := none },
                nameFilters := [], labelFilters := [], streamCreates := false,
                streamUpdates := false }
              [{ id := "a1", name := "one", meta := [] }])
            [{ id := "a1", name := "one", meta := [] }] 0,
          some { size := 2, beforeID := some 10 }) :=
  (listApps_snapshot_error_semantics repoFillError 1
      { pageSize := 2, pageToken := { size := 0, beforeID := none },
        nameFilters := [], labelFilters := [], streamCreates := false,
        streamUpdates := false }
      "db down" [{ id := "a1", name := "one", meta := [] }]
      { size := 2, beforeID := some 10 }).2 rfl rfl (by decide)

/-- Claim C7, counterexample.  The claim states the returned list has
exactly `min(page_size, total matching items)` entries when
`page_size > 0`.  With page size 2 and three matching apps spread over two
repo pages (one on the first, two on the second), the page-filling
recursion requests a full page again and prepends it, returning 3 entries
where the claim demands `min 2 3 = 2`. -/
theorem listApps_overfills_requested_page :
    listApps repoOverfill 3
        { pageSize := 2, pageToken := { size := 0, beforeID := none },
          nameFilters := [], labelFilters := [[("env", "prod")]], streamCreates := false,
          streamUpdates := false } =
      Except.ok ([{ name := "apps/a3", labels := [("env", "prod")] },
                  { name := "apps/a4", labels := [("env", "prod")] },
                  { name := "apps/a1", labels := [("env", "prod")] }],
        some { size := 2, beforeID := some 10 })
    ∧ min (2 : Nat) 3 = 2 :=
  ⟨rfl, rfl⟩

theorem collectApps_length_le (appIDs : List String) (labelFilters : List Labels)
    (pageSize : Int) :
    ∀ (l : List CtApp) (n : Int), n < pageSize →
      ((collectApps appIDs labelFilters pageSize l n).length : Int) ≤ pageSize - n := by
  intro l
  induction l with
  | nil =>
    intro n hn
    simp only [collectApps, List.length_nil]
    omega
  | cons a rest ih =>
    intro n hn
    rw [collectApps]
    by_cases h1 : (!appIDs.isEmpty && !(appIDs.any fun x => a.id == x || a.name == x)) = true
    · rw [if_pos h1]; exact ih n hn
    · rw [if_neg h1]
      by_cases h2 : (!matchLabelFilters a.meta labelFilters) = true
      · rw [if_pos h2]; exact ih n hn
      · rw [if_neg h2]
        dsimp only
        by_cases h3 : n + 1 = pageSize
        · rw [if_pos h3]
          simp only [List.length_singleton]
          omega
        · rw [if_neg h3]
          have hb := ih (n + 1) (by omega)
          simp only [List.length_cons]
          push_cast
          push_cast at hb
          omega

theorem listApps_length_le
    (repo : PageToken → Except String (List CtApp × Option PageToken)) :
    ∀ (fuel : Nat) (req : StreamAppsRequest), 0 < req.pageSize →
      ∀ (res : List PApp) (npt : Option PageToken),
        listApps repo fuel req = .ok (res, npt) →
        (res.length : Int) ≤ (fuel : Int) * req.pageSize := by
  intro fuel
  induction fuel with
  | zero =>
    intro req hps res npt h
    simp [listApps] at h
  | succ fuel ih =>
    intro req hps res npt h
    simp only [listApps] at h
    cases hrepo : repo (listAppsQueryToken req) with
    | error e =>
      rw [hrepo] at h
      simp at h
    | ok page =>
      obtain ⟨ctApps, nextTok⟩ := page
      rw [hrepo] at h
      dsimp only at h
      have hps' : listAppsPageSize req ctApps = req.pageSize := by
        simp only [listAppsPageSize]
        rw [if_pos hps, if_neg (by omega)]
      rw [hps'] at h
      have hcoll :
          ((collectApps (parseAppIDsFromNameFilters req.nameFilters) req.labelFilters
              req.pageSize ctApps 0).length : Int) ≤ req.pageSize := by
        have := collectApps_length_le (parseAppIDsFromNameFilters req.nameFilters)
          req.labelFilters req.pageSize ctApps 0 hps
        omega
      have hmul : (0 : Int) ≤ (fuel : Int) * req.pageSize :=
        mul_nonneg (by positivity) (le_of_lt hps)
      by_cases hcond :
          ((collectApps (parseAppIDsFromNameFilters req.nameFilters) req.labelFilters
              req.pageSize ctApps 0).length : Int) < req.pageSize ∧ nextTok.isSome = true
      · rw [if_pos hcond] at h
        cases hrec : listApps repo fuel
            { req with pageToken := nextTok.getD (listAppsQueryToken req) } with
        | error e2 =>
          rw [hrec] at h
          simp only [Except.ok.injEq, Prod.mk.injEq] at h
          obtain ⟨h4, h5⟩ := h
          subst h4
          push_cast
          linarith
        | ok pres =>
          obtain ⟨nextApps, npt2⟩ := pres
          rw [hrec] at h
          simp only [Except.ok.injEq, Prod.mk.injEq] at h
          obtain ⟨h4, h5⟩ := h
          subst h4
          have hnext := ih { req with pageToken := nextTok.getD (listAppsQueryToken req) }
            hps nextApps npt2 hrec
          simp only [List.length_append]
          push_cast
          push_cast at hnext hcoll
          nlinarith
      · rw [if_neg hcond] at h
        simp only [Except.ok.injEq, Prod.mk.injEq] at h
        obtain ⟨h4, h5⟩ := h
        subst h4
        push_cast
        push_cast at hcoll
        nlinarith

/-- Claim C7, amended: when the filtered page has fewer matches than
`page_size` and a next page token exists, `listApps` recursively fetches
subsequent pages and prepends the earlier matches to them; but each
recursive level collects up to `page_size` matches of its own, regardless
of how many were already collected, so the returned list is bounded by
`page_size` per level (`fuel · page_size` in total) and can exceed
`page_size` — it is not `min(page_size, total matching items)`. -/
theorem listApps_page_filling_amended
    (appIDs : List String) (labelFilters : List Labels) (pageSize : Int)
    (l : List CtApp) (n : Int)
    (repo : PageToken → Except String (List CtApp × Option PageToken))
    (fuel : Nat) (req : StreamAppsRequest) (res : List PApp) (npt : Option PageToken)
    (hn : n < pageSize) (hps : 0 < req.pageSize)
    (hres : listApps repo fuel req = .ok (res, npt)) :
    ((collectApps appIDs labelFilters pageSize l n).length : Int) ≤ pageSize - n
    ∧ (res.length : Int) ≤ (fuel : Int) * req.pageSize :=
  ⟨collectApps_length_le appIDs labelFilters pageSize l n hn,
   listApps_length_le repo fuel req hps res npt hres⟩

/-- Witness for `listApps_page_filling_amended`: the overfilling three-page
repo returns 3 entries, within the `3 · 2` bound. -/
theorem listApps_page_filling_amended_witness :
    ((collectApps [] [] 2 [] 0).length : Int) ≤ 2 - 0
    ∧ (([{ name := "apps/a3", labels := [("env", "prod")] },
         { name := "apps/a4", labels := [("env", "prod")] },
         { name := "apps/a1", labels := [("env", "prod")] }] : List PApp).length : Int) ≤
        (3 : Nat) * (2 : Int) :=
  listApps_page_filling_amended [] [] 2 [] 0 repoOverfill 3
    { pageSize := 2, pageToken := { size := 0, beforeID := none },
      nameFilters := [], labelFilters := [[("env", "prod")]], streamCreates := false,
      streamUpdates := false }
    [{ name := "apps/a3", labels := [("env", "prod")] },
     { name := "apps/a4", labels := [("env", "prod")] },
     { name := "apps/a1", labels := [("env", "prod")] }]
    (some { size := 2, beforeID := some 10 })
    (by decide) (by decide) rfl

/-! ## Handler control flow: subscribe / snapshot ordering -/

/-- The externally visible steps of a Stream* handler, in execution order. -/
inductive StreamAction where
  | subscribeBus
  | snapshotQuery
  | sendPage
  | liveLoop
  deriving DecidableEq, Repr

/-- Control-flow trace of `StreamApps` (lines 348-443): for streaming
requests the subscription is opened first (lines 374-382), then the
snapshot (`refreshApps`, line 384) runs and the first page is sent; for
unary requests no subscription is opened.  `subOk` / `listOk` say whether
`subscribeEvents` / `listApps` succeed; a failing step returns at once. -/
def streamAppsActions (unary subOk listOk : Bool) : List StreamAction :=
  if unary then
    if listOk then [.snapshotQuery, .sendPage] else [.snapshotQuery]
  else
    if !subOk then [.subscribeBus]
    else if !listOk then [.subscribeBus, .snapshotQuery]
    else [.subscribeBus, .snapshotQuery, .sendPage, .liveLoop]

/-- Control-flow trace of `StreamScales` (lines 552-701): the subscription
is opened (line 579) before the `ListScaleRequests` snapshot (line 587),
even for unary requests; the first page is sent, then the live loop runs
for streaming requests. -/
def streamScalesActions (unary subOk listOk : Bool) : List StreamAction :=
  if !subOk then [.subscribeBus]
  else if !listOk then [.subscribeBus, .snapshotQuery]
  else if unary then [.subscribeBus, .snapshotQuery, .sendPage]
  else [.subscribeBus, .snapshotQuery, .sendPage, .liveLoop]

/-- Control-flow trace of `StreamReleases` (lines 703-888): the
subscription is opened (line 809) before the `LegacyListEvents` snapshot
(line 822), even for unary requests. -/
def streamReleasesActions (unary subOk listOk : Bool) : List StreamAction :=
  if !subOk then [.subscribeBus]
  else if !listOk then [.subscribeBus, .snapshotQuery]
  else if unary then [.subscribeBus, .snapshotQuery, .sendPage]
  else [.subscribeBus, .snapshotQuery, .sendPage, .liveLoop]

/-- Control-flow trace of `StreamDeployments` (lines 940-1027): the
snapshot (`refreshDeployments`, line 967) runs and the first page is sent
(line 971) before the subscription is opened (line 979) for streaming
requests. -/
def streamDeploymentsActions (unary subOk listOk : Bool) : List StreamAction :=
  if !listOk then [.snapshotQuery]
  else if unary then [.snapshotQuery, .sendPage]
  else if !subOk then [.snapshotQuery, .sendPage, .subscribeBus]
  else [.snapshotQuery, .sendPage, .subscribeBus, .liveLoop]

/-- Claim C2, counterexample: `StreamDeployments` with a streaming flag set
issues the snapshot query — and sends the first page — before opening its
bus subscription, refuting the claim that every Stream* handler subscribes
before the snapshot query. -/
theorem streamDeployments_subscribes_after_snapshot :
    streamDeploymentsActions false true true =
      [StreamAction.snapshotQuery, StreamAction.sendPage, StreamAction.subscribeBus,
       StreamAction.liveLoop]
    ∧ (streamDeploymentsActions false true true).indexOf StreamAction.snapshotQuery <
        (streamDeploymentsActions false true true).indexOf StreamAction.subscribeBus := by
  decide

/-- Claim C2, amended: for streaming requests, `StreamApps`, `StreamScales`
and `StreamReleases` open the bus subscription as their first step, before
the snapshot query; `StreamDeployments` instead starts with the snapshot
query and subscribes only afterwards (if at all). -/
theorem subscribe_before_snapshot_amended (subOk listOk : Bool) :
    (streamAppsActions false subOk listOk).head? = some StreamAction.subscribeBus
    ∧ (streamScalesActions false subOk listOk).head? = some StreamAction.subscribeBus
    ∧ (streamReleasesActions false subOk listOk).head? = some StreamAction.subscribeBus
    ∧ (streamDeploymentsActions false subOk listOk).head? = some StreamAction.snapshotQuery
    ∧ (streamDeploymentsActions false subOk listOk).indexOf StreamAction.snapshotQuery ≤
        (streamDeploymentsActions false subOk listOk).indexOf StreamAction.subscribeBus := by
  cases subOk <;> cases listOk <;> decide

/-! ## subscribeEvents (`controller.go` lines 162-218) -/

/-- Bus-subscriber lifecycle actions, indexed by creation order. -/
inductive SubEvtAction where
  | subCreated (i : Nat)
  | subClosed (i : Nat)
  deriving DecidableEq, Repr

/-- The fan-in `EventListener` handle returned by `subscribeEvents`,
holding its underlying bus subscribers. -/
structure BusHandle where
  subs : List Nat
  deriving DecidableEq, Repr

/-- Method `EventListener.Close` (lines 169-176): closes every underlying
subscriber of the handle. -/
def busHandleClose (h : BusHandle) : List SubEvtAction :=
  h.subs.map SubEvtAction.subClosed

/-- The per-app-id subscription loop of `subscribeEvents` (lines 198-215),
with `dataEventListener.Subscribe` as an oracle indexed by position (`.ok`
creates subscriber number `i`); on the first failing call the loop returns
the error immediately.  The second component is the trace of lifecycle
actions performed: only creations — the error path closes nothing. -/
def subscribeLoop (subOracle : Nat → Except String Unit) :
    Nat → List String → Except String (List Nat) × List SubEvtAction
  | _, [] => (.ok [], [])
  | i, _ :: rest =>
    match subOracle i with
    | .error e => (.error e, [])
    | .ok _ =>
      let r := subscribeLoop subOracle (i + 1) rest
      (r.1.map (fun subs => i :: subs), .subCreated i :: r.2)

/-- Function `subscribeEvents` (lines 178-218): start the shared listener
(`maybeStart` oracle, `maybeStartEventListener`), substitute `[""]` for an
empty app-id list, then create one underlying subscriber per app id and
return the fan-in handle — or, on the first failure, return the error and
no handle. -/
def subscribeEvents (maybeStart : Except String Unit)
    (subOracle : Nat → Except String Unit) (appIDs : List String) :
    Except String BusHandle × List SubEvtAction :=
  match maybeStart with
  | .error e => (.error e, [])
  | .ok _ =>
    let ids := if appIDs.isEmpty then [""] else appIDs
    let r := subscribeLoop subOracle 0 ids
    (r.1.map (fun subs => { subs := subs }), r.2)

theorem subscribeLoop_err (subOracle : Nat → Except String Unit) (msg : String) :
    ∀ (l : List String) (start j : Nat),
      (∀ k, k < j → subOracle (start + k) = .ok ()) →
      subOracle (start + j) = .error msg →
      j < l.length →
      subscribeLoop subOracle start l =
        (.error msg, (List.range' start j).map SubEvtAction.subCreated) := by
  intro l
  induction l with
  | nil =>
    intro start j _ _ hlen
    simp at hlen
  | cons a rest ih =>
    intro start j hok herr hlen
    cases j with
    | zero =>
      rw [subscribeLoop]
      rw [Nat.add_zero] at herr
      rw [herr]
      rfl
    | succ j =>
      rw [subscribeLoop]
      have h0 : subOracle start = .ok () := by
        have := hok 0 (Nat.succ_pos j)
        rwa [Nat.add_zero] at this
      rw [h0]
      dsimp only
      have ihr := ih (start + 1) j
        (fun k hk => by
          have := hok (k + 1) (by omega)
          rwa [show start + (k + 1) = start + 1 + k by omega] at this)
        (by rwa [show start + (j + 1) = start + 1 + j by omega] at herr)
        (by simpa using hlen)
      rw [ihr, List.range'_succ]
      rfl

/-- Claim C9: `subscribeEvents` is not atomic on failure: when creating the
bus subscriber for the i-th app id fails after the earlier ones succeeded
(i > 0), it returns the error and no handle, while the i previously
created underlying subscribers remain open — the action trace records
exactly their creations and contains no close action. -/
theorem subscribeEvents_leaks_on_partial_failure
    (subOracle : Nat → Except String Unit) (appIDs : List String) (i : Nat) (msg : String)
    (hne : appIDs.isEmpty = false)
    (hok : ∀ j, j < i → subOracle j = .ok ())
    (herr : subOracle i = .error msg)
    (hi : 0 < i) (hlen : i < appIDs.length) :
    (subscribeEvents (.ok ()) subOracle appIDs).1 = .error msg
    ∧ (subscribeEvents (.ok ()) subOracle appIDs).2 =
        (List.range i).map SubEvtAction.subCreated
    ∧ ∀ a ∈ (subscribeEvents (.ok ()) subOracle appIDs).2, ∀ j,
        a ≠ SubEvtAction.subClosed j := by
  have hloop := subscribeLoop_err subOracle msg appIDs 0 i
    (fun k hk => by simpa using hok k hk) (by simpa using herr) hlen
  have hsub : subscribeEvents (.ok ()) subOracle appIDs =
      ((Except.error msg).map (fun subs => ({ subs := subs } : BusHandle)),
        (List.range' 0 i).map SubEvtAction.subCreated) := by
    simp only [subscribeEvents, hne]
    rw [if_neg (by simp)]
    rw [hloop]
  rw [hsub]
  refine ⟨rfl, ?_, ?_⟩
  · rw [List.range_eq_range']
  · intro a ha j
    obtain ⟨k, _, rfl⟩ := List.mem_map.mp ha
    intro hcontra
    exact SubEvtAction.noConfusion hcontra

/-- A subscribe oracle that succeeds once and then fails. -/
def subOracleOneGood : Nat → Except String Unit := fun n =>
  if n = 0 then .ok () else .error "listen failed"

/-- Witness for `subscribeEvents_leaks_on_partial_failure`: with two app
ids and a second subscription that fails, the call errors after creating
(and never closing) the first subscriber. -/
theorem subscribeEvents_leaks_witness :
    (subscribeEvents (.ok ()) subOracleOneGood ["a1", "a2"]).1 = .error "listen failed"
    ∧ (subscribeEvents (.ok ()) subOracleOneGood ["a1", "a2"]).2 =
        (List.range 1).map SubEvtAction.subCreated :=
  And.intro
    (subscribeEvents_leaks_on_partial_failure subOracleOneGood ["a1", "a2"] 1 "listen failed"
      rfl (fun j hj => by
        have : j = 0 := by omega
        subst this
        rfl)
      rfl (by decide) (by decide)).1
    (subscribeEvents_leaks_on_partial_failure subOracleOneGood ["a1", "a2"] 1 "listen failed"
      rfl (fun j hj => by
        have : j = 0 := by omega
        subst this
        rfl)
      rfl (by decide) (by decide)).2.1

end ControllerGRPC
